import Mathlib

/-!
Verification of the core algorithms of `astroscan.py` (Astro_Stock_SCAN):
zodiac-sign derivation, aspect tables, aspect-onset-date compression, the
per-symbol event-window analyzer, the gain/fall move classification, and the
per-symbol occurrence aggregation.

Modelling conventions:
* Python `float` values (longitudes, closing prices, percentages) are embedded
  as `ℚ`; all comparisons and arithmetic in the claims are exact, so no
  rounding behaviour is relied upon.
* Python `datetime.date` values are embedded as a `Date` triple; subtraction of
  parsed dates (`(a - b).days`) is embedded as subtraction of proleptic
  Gregorian ordinals (`toOrdinal`).
* Python `datetime.strptime(s, "%d-%m-%Y")` is embedded as `parseDMY`, which
  accepts 1-2 digit day and month fields, an exactly-4-digit year, and
  validates the day against the month length, exactly as `strptime` does;
  failure is `none` where Python raises.
* Python float division by zero raises `ZeroDivisionError`; fallible code is
  therefore embedded in `Except String`, with the zero-anchor division mapped
  to `Except.error "ZeroDivisionError"`.
-/

/-- A calendar date as produced by `swe.revjul` / `datetime.date`. -/
structure Date where
  year : Nat
  month : Nat
  day : Nat
deriving DecidableEq

/-- Proleptic Gregorian day number (an arbitrary but fixed epoch); differences
of `toOrdinal` agree with Python `(date1 - date2).days`. -/
def toOrdinal (dt : Date) : Int :=
  let y : Int := if dt.month ≤ 2 then (dt.year : Int) - 1 else (dt.year : Int)
  let m : Int := if dt.month ≤ 2 then (dt.month : Int) + 12 else (dt.month : Int)
  365 * y + y / 4 - y / 100 + y / 400 + (153 * (m - 3) + 2) / 5 + (dt.day : Int)

/-- Gregorian leap-year test, as used by Python `datetime`. -/
def isLeap (y : Nat) : Bool :=
  y % 4 = 0 && (y % 100 ≠ 0 || y % 400 = 0)

/-- Number of days in a month, as validated by Python `datetime`. -/
def daysInMonth (y m : Nat) : Nat :=
  if m = 2 then (if isLeap y then 29 else 28)
  else if m = 4 || m = 6 || m = 9 || m = 11 then 30
  else 31

/-- Numeric value of a digit string. -/
def digitsVal (cs : List Char) : Nat :=
  cs.foldl (fun acc c => 10 * acc + (c.toNat - 48)) 0

/-- Split a character list on the separator `-`, as `strptime` does between
the `%d`, `%m` and `%Y` fields. -/
def splitDashes : List Char → List (List Char)
  | [] => [[]]
  | c :: cs =>
    if c = '-' then [] :: splitDashes cs
    else
      match splitDashes cs with
      | [] => [[c]]
      | p :: ps => (c :: p) :: ps

/-- Embedding of `datetime.datetime.strptime(s, "%d-%m-%Y")`: day and month
are 1-2 digits, the year exactly 4 digits, ranges validated (including month
length and leap years); `none` models a raised `ValueError`. -/
def parseDMY (s : String) : Option Date :=
  match splitDashes s.toList with
  | [ds, ms, ys] =>
    if ds.all Char.isDigit && 1 ≤ ds.length && ds.length ≤ 2 &&
       ms.all Char.isDigit && 1 ≤ ms.length && ms.length ≤ 2 &&
       ys.all Char.isDigit && ys.length = 4 then
      let d := digitsVal ds
      let m := digitsVal ms
      let y := digitsVal ys
      if 1 ≤ y && 1 ≤ m && m ≤ 12 && 1 ≤ d && d ≤ daysInMonth y m then
        some ⟨y, m, d⟩
      else
        none
    else
      none
  | _ => none

/-- The 12 zodiac signs, in source order (`ZODIACS`). -/
def ZODIACS : List String :=
  ["Aries", "Taurus", "Gemini", "Cancer", "Leo", "Virgo",
   "Libra", "Scorpio", "Sagittarius", "Capricorn", "Aquarius", "Pisces"]

/-- Embedding of `get_zodiac_name`: `ZODIACS[int(sid_lon // 30) % 12]`.
Python floor division on a nonnegative-modulus `%` matches `Int.floor` and
`Int.emod` for the positive constants 30 and 12. -/
def get_zodiac_name (sid_lon : ℚ) : String :=
  ZODIACS.getD (Int.toNat (⌊sid_lon / 30⌋ % 12)) ""

/-- The `Opposition` table of `ASPECTS`, transcribed entry by entry. -/
def ASPECTS_Opposition : List (String × String) :=
  [("Aries", "Libra"), ("Taurus", "Scorpio"), ("Gemini", "Sagittarius"),
   ("Cancer", "Capricorn"), ("Leo", "Aquarius"), ("Virgo", "Pisces"),
   ("Libra", "Aries"), ("Scorpio", "Taurus"), ("Sagittarius", "Gemini"),
   ("Capricorn", "Cancer"), ("Aquarius", "Leo"), ("Pisces", "Virgo")]

/-- The `Conjunction` table of `ASPECTS`: `{z: z for z in ZODIACS}`. -/
def ASPECTS_Conjunction : List (String × String) :=
  ZODIACS.map (fun z => (z, z))

/-- The `Square` table of `ASPECTS`, transcribed entry by entry. -/
def ASPECTS_Square : List (String × String) :=
  [("Aries", "Cancer"), ("Taurus", "Leo"), ("Gemini", "Virgo"),
   ("Cancer", "Libra"), ("Leo", "Scorpio"), ("Virgo", "Sagittarius"),
   ("Libra", "Capricorn"), ("Scorpio", "Aquarius"), ("Sagittarius", "Pisces"),
   ("Capricorn", "Aries"), ("Aquarius", "Taurus"), ("Pisces", "Gemini")]

/-- The `Trine` table of `ASPECTS`, transcribed entry by entry. -/
def ASPECTS_Trine : List (String × String) :=
  [("Aries", "Leo"), ("Taurus", "Virgo"), ("Gemini", "Libra"),
   ("Cancer", "Scorpio"), ("Leo", "Sagittarius"), ("Virgo", "Capricorn"),
   ("Libra", "Aquarius"), ("Scorpio", "Pisces"), ("Sagittarius", "Aries"),
   ("Capricorn", "Taurus"), ("Aquarius", "Gemini"), ("Pisces", "Cancer")]

/-- The `Sextile` table of `ASPECTS`, transcribed entry by entry. -/
def ASPECTS_Sextile : List (String × String) :=
  [("Aries", "Gemini"), ("Taurus", "Cancer"), ("Gemini", "Leo"),
   ("Cancer", "Virgo"), ("Leo", "Libra"), ("Virgo", "Scorpio"),
   ("Libra", "Sagittarius"), ("Scorpio", "Capricorn"),
   ("Sagittarius", "Aquarius"), ("Capricorn", "Pisces"),
   ("Aquarius", "Aries"), ("Pisces", "Taurus")]

/-- The five relation tables of `ASPECTS`, keyed as in the source dict. -/
def ASPECTS : List (String × List (String × String)) :=
  [("Opposition", ASPECTS_Opposition), ("Conjunction", ASPECTS_Conjunction),
   ("Square", ASPECTS_Square), ("Trine", ASPECTS_Trine),
   ("Sextile", ASPECTS_Sextile)]

/-!
Onset-date compression of `find_aspect_dates`. The source stores detections as
`DD-MM-YYYY` strings and re-parses them inside `unique_first_past` /
`unique_first_future` to take day differences; since every stored string was
produced from a calendar date (via `swe.revjul`) the round trip is exact, and
the loop is embedded directly over `Date` values with `toOrdinal` differences
standing for `(strptime(e) - strptime(prev)).days`. Both source functions
contain the identical compression loop (the variable `prev` is updated on
every iteration, retained or not); they differ only in the final truncation.
-/

/-- The shared compression loop of `unique_first_past` / `unique_first_future`:
`prev` is the previous input entry (updated on every iteration), and an entry
is kept when there is no previous entry or its day difference from the
previous entry is not 1. -/
def compressAux (prev : Option Date) : List Date → List Date
  | [] => []
  | e :: rest =>
    match prev with
    | none => e :: compressAux (some e) rest
    | some p =>
      if toOrdinal e - toOrdinal p = 1 then compressAux (some e) rest
      else e :: compressAux (some e) rest

/-- Compression of a detection list to onset dates (`out` in the source). -/
def compress (entries : List Date) : List Date :=
  compressAux none entries

/-- Python `out[-keep:]`: the last `keep` elements, with the `-0` quirk that
`keep = 0` yields the whole list. -/
def pyTakeLast (l : List Date) (keep : Nat) : List Date :=
  if keep = 0 then l else l.drop (l.length - keep)

/-- Embedding of `unique_first_past`: compress, then `out[-keep:][::-1]`. -/
def unique_first_past (entries : List Date) (keep : Nat) : List Date :=
  (pyTakeLast (compress entries) keep).reverse

/-- Embedding of `unique_first_future`: compress, then `out[:keep]`. -/
def unique_first_future (entries : List Date) (keep : Nat) : List Date :=
  (compress entries).take keep

/-- Modelled from the spec's wording for the compression step (C1): "keep an
entry only if it is not exactly one calendar day after the previously
retained entry"; here `prev` is only updated when an entry is retained. -/
def compressRetainedSpec (prev : Option Date) : List Date → List Date
  | [] => []
  | e :: rest =>
    match prev with
    | none => e :: compressRetainedSpec (some e) rest
    | some p =>
      if toOrdinal e - toOrdinal p = 1 then compressRetainedSpec (some p) rest
      else e :: compressRetainedSpec (some e) rest

/-- Declarative description of the source's compression: the first entry,
followed by every entry whose day difference from the entry immediately
before it in the input is not 1. -/
def compressPrevSpec : List Date → List Date
  | [] => []
  | e :: rest =>
    e :: (((e :: rest).zip rest).filter
      (fun p => decide (toOrdinal p.2 - toOrdinal p.1 ≠ 1))).map Prod.snd

/-!
Event-window analyzer (`analyze_symbol_for_aspect_dates`). The price series is
a list of bars in index order; `mask = df.index.date == d` with first-match
`get_loc` is embedded by `findBar`, which returns the first bar with the
requested date together with the bars strictly after its position
(`df.iloc[idx_pos + 1:]`). Python raises `ZeroDivisionError` on float division
by zero, which aborts the whole call; this is embedded as `Except.error`.
-/

/-- One trading bar: its calendar date and closing price. -/
structure Bar where
  date : Date
  close : ℚ
deriving DecidableEq

/-- One result dict of `analyze_symbol_for_aspect_dates`. -/
structure AnalyzeResult where
  aspect_date : String
  close : ℚ
  max10 : ℚ
  min10 : ℚ
  pct_max : ℚ
  pct_min : ℚ
deriving DecidableEq

/-- First bar whose date equals `d`, together with the bars strictly after it
(the source's `mask` / `get_loc` / `iloc[start_pos:]` combination). -/
def findBar (d : Date) : List Bar → Option (Bar × List Bar)
  | [] => none
  | b :: rest => if b.date = d then some (b, rest) else findBar d rest

/-- Fold maximum of a list of closes onto an initial close. -/
def foldMax (c : ℚ) (cs : List ℚ) : ℚ := cs.foldl max c

/-- Fold minimum of a list of closes onto an initial close. -/
def foldMin (c : ℚ) (cs : List ℚ) : ℚ := cs.foldl min c

/-- Body of the per-date loop of `analyze_symbol_for_aspect_dates`: parse the
date (failure skips), locate the bar (no match skips), take the next 10 bars
(`df.iloc[idx_pos + 1 : idx_pos + 11]`; empty window skips), then compute the
window statistics; a zero anchor close raises `ZeroDivisionError`. -/
def processDate (df : List Bar) (ds : String) : Except String (Option AnalyzeResult) :=
  match parseDMY ds with
  | none => Except.ok none
  | some d =>
    match findBar d df with
    | none => Except.ok none
    | some (b, after) =>
      match (after.take 10).map Bar.close with
      | [] => Except.ok none
      | c :: cs =>
        if b.close = 0 then Except.error "ZeroDivisionError"
        else
          Except.ok (some
            { aspect_date := ds
              close := b.close
              max10 := foldMax c cs
              min10 := foldMin c cs
              pct_max := (foldMax c cs - b.close) / b.close * 100
              pct_min := (foldMin c cs - b.close) / b.close * 100 })

/-- Embedding of `analyze_symbol_for_aspect_dates`: the per-date loop in input
order; an uncaught exception aborts the whole call, discarding all results. -/
def analyze_symbol_for_aspect_dates (df : List Bar) :
    List String → Except String (List AnalyzeResult)
  | [] => Except.ok []
  | ds :: rest =>
    match processDate df ds with
    | Except.error e => Except.error e
    | Except.ok none => analyze_symbol_for_aspect_dates df rest
    | Except.ok (some r) =>
      (analyze_symbol_for_aspect_dates df rest).map (fun l => r :: l)

/-!
Classification and aggregation (Stocks Scan tab). A record qualifies when
`pct_max >= 10.0 or pct_min <= -10.0`; its move category is
`"😆 >10% Gain" if pct_max >= 10 else "😩 >10% Fall"`. The aggregation adds a
per-symbol occurrence count (`groupby("symbol").transform("count")`) and the
presentation filter keeps rows with `Count >= min_hits`.
-/

/-- Qualification test applied to each analyzer item in the scan loop. -/
def qualifies (pct_max pct_min : ℚ) : Prop :=
  10 ≤ pct_max ∨ pct_min ≤ -10

/-- The `Move Category` expression of the scan loop. -/
def moveCategory (pct_max : ℚ) : String :=
  if 10 ≤ pct_max then "😆 >10% Gain" else "😩 >10% Fall"

/-- One row of the `results` list built by the scan loop (the fields the
aggregation and the spec's summary depend on). -/
structure ScanRow where
  symbol : String
  pct_max : ℚ
  pct_min : ℚ
deriving DecidableEq

/-- Embedding of `df_res["Count"] = df_res.groupby("symbol")["symbol"]
.transform("count")`: each row is paired with the number of rows sharing its
symbol; row order is unchanged. -/
def addCount (rows : List ScanRow) : List (ScanRow × Nat) :=
  rows.map (fun r => (r, rows.countP (fun s => decide (s.symbol = r.symbol))))

/-- Embedding of `df_filtered = df_res[df_res["Count"] >= min_hits]`. -/
def df_filtered (rows : List ScanRow) (min_hits : Nat) : List (ScanRow × Nat) :=
  (addCount rows).filter (fun p => decide (min_hits ≤ p.2))

/-- Modelled from the spec: the per-symbol win count of the summary the spec
describes, "win count (pct_max ≥ 10)" — the code computes no such summary. -/
def specWinCount (rows : List ScanRow) (sym : String) : Nat :=
  rows.countP (fun r => decide (r.symbol = sym ∧ 10 ≤ r.pct_max))

/-- Modelled from the spec: the per-symbol occurrence count of the summary. -/
def specOccCount (rows : List ScanRow) (sym : String) : Nat :=
  rows.countP (fun r => decide (r.symbol = sym))

/-- Modelled from the spec: the win percentage of the per-symbol summary. -/
def specWinPct (rows : List ScanRow) (sym : String) : ℚ :=
  100 * (specWinCount rows sym : ℚ) / (specOccCount rows sym : ℚ)

/-!
Helper lemmas.
-/

/-- The compression loop, started after a previous entry `p`, keeps exactly
the entries whose day difference from the entry immediately before them in
the input is not 1. -/
theorem compressAux_some_eq (rest : List Date) : ∀ p : Date,
    compressAux (some p) rest
      = (((p :: rest).zip rest).filter
          (fun q => decide (toOrdinal q.2 - toOrdinal q.1 ≠ 1))).map Prod.snd := by
  induction rest with
  | nil => intro p; rfl
  | cons e rs ih =>
    intro p
    by_cases h : toOrdinal e - toOrdinal p = 1
    · simp [compressAux, h, ih e]
    · simp [compressAux, h, ih e]

/-- On a chain of consecutive dates the compression loop drops everything
after the first entry. -/
theorem compressAux_chain (rest : List Date) : ∀ p : Date,
    List.Chain (fun a b => toOrdinal b = toOrdinal a + 1) p rest →
    compressAux (some p) rest = [] := by
  induction rest with
  | nil => intro p _; rfl
  | cons e rs ih =>
    intro p h
    cases h with
    | cons hr hc =>
      have h1 : toOrdinal e - toOrdinal p = 1 := by omega
      simp [compressAux, h1, ih e hc]

/-- The fold maximum of a nonempty list of closes is one of them. -/
theorem foldMax_mem (cs : List ℚ) : ∀ c : ℚ, foldMax c cs ∈ c :: cs := by
  induction cs with
  | nil => intro c; simp [foldMax]
  | cons e es ih =>
    intro c
    have h := ih (max c e)
    simp only [foldMax, List.foldl_cons] at h ⊢
    simp only [List.mem_cons] at h ⊢
    rcases h with h | h
    · rcases max_choice c e with hm | hm
      · exact Or.inl (h.trans hm)
      · exact Or.inr (Or.inl (h.trans hm))
    · exact Or.inr (Or.inr h)

/-- The fold maximum of a nonempty list of closes bounds all of them. -/
theorem le_foldMax (cs : List ℚ) : ∀ c : ℚ, ∀ x ∈ c :: cs, x ≤ foldMax c cs := by
  induction cs with
  | nil =>
    intro c x hx
    simp only [List.mem_singleton] at hx
    simp [foldMax, hx]
  | cons e es ih =>
    intro c x hx
    simp only [List.mem_cons] at hx
    have hstep : ∀ y ∈ (max c e) :: es, y ≤ foldMax (max c e) es := ih (max c e)
    have hend : foldMax c (e :: es) = foldMax (max c e) es := by
      simp [foldMax]
    rw [hend]
    rcases hx with rfl | rfl | hx
    · exact le_trans (le_max_left x e) (hstep _ (List.mem_cons_self _ _))
    · exact le_trans (le_max_right c x) (hstep _ (List.mem_cons_self _ _))
    · exact hstep x (List.mem_cons_of_mem _ hx)

/-- The fold minimum of a nonempty list of closes is one of them. -/
theorem foldMin_mem (cs : List ℚ) : ∀ c : ℚ, foldMin c cs ∈ c :: cs := by
  induction cs with
  | nil => intro c; simp [foldMin]
  | cons e es ih =>
    intro c
    have h := ih (min c e)
    simp only [foldMin, List.foldl_cons] at h ⊢
    simp only [List.mem_cons] at h ⊢
    rcases h with h | h
    · rcases min_choice c e with hm | hm
      · exact Or.inl (h.trans hm)
      · exact Or.inr (Or.inl (h.trans hm))
    · exact Or.inr (Or.inr h)

/-- The fold minimum of a nonempty list of closes is below all of them. -/
theorem foldMin_le (cs : List ℚ) : ∀ c : ℚ, ∀ x ∈ c :: cs, foldMin c cs ≤ x := by
  induction cs with
  | nil =>
    intro c x hx
    simp only [List.mem_singleton] at hx
    simp [foldMin, hx]
  | cons e es ih =>
    intro c x hx
    simp only [List.mem_cons] at hx
    have hstep : ∀ y ∈ (min c e) :: es, foldMin (min c e) es ≤ y := ih (min c e)
    have hend : foldMin c (e :: es) = foldMin (min c e) es := by
      simp [foldMin]
    rw [hend]
    rcases hx with rfl | rfl | hx
    · exact le_trans (hstep _ (List.mem_cons_self _ _)) (min_le_left x e)
    · exact le_trans (hstep _ (List.mem_cons_self _ _)) (min_le_right c x)
    · exact hstep x (List.mem_cons_of_mem _ hx)

/-!
Claim theorems.
-/

/-- Claim C1, counterexample. The claim states that the compression step
retains an entry exactly when it is not one calendar day after the previously
RETAINED entry. On the chronologically ordered detection list
01-01-2024, 02-01-2024, 03-01-2024 the code retains only the first entry,
although 03-01-2024 is two days after the previously retained entry
01-01-2024 — so by the claim's rule it would have to be retained. -/
theorem compress_retained_rule_cex :
    compress [⟨2024, 1, 1⟩, ⟨2024, 1, 2⟩, ⟨2024, 1, 3⟩] = [⟨2024, 1, 1⟩] ∧
    toOrdinal ⟨2024, 1, 3⟩ - toOrdinal ⟨2024, 1, 1⟩ ≠ 1 ∧
    (⟨2024, 1, 3⟩ : Date) ∉ compress [⟨2024, 1, 1⟩, ⟨2024, 1, 2⟩, ⟨2024, 1, 3⟩] ∧
    compressRetainedSpec none [⟨2024, 1, 1⟩, ⟨2024, 1, 2⟩, ⟨2024, 1, 3⟩]
      = [⟨2024, 1, 1⟩, ⟨2024, 1, 3⟩] := by
  refine ⟨by decide, by decide, by decide, by decide⟩

/-- Claim C1, amended: the compression step of `find_aspect_dates` retains an
entry exactly when it is not one calendar day after the entry immediately
preceding it in the input list (the first entry of a non-empty list is always
retained): the loop equals the declarative description `compressPrevSpec`. -/
theorem compress_keeps_non_consecutive_entries (entries : List Date) :
    compress entries = compressPrevSpec entries := by
  cases entries with
  | nil => rfl
  | cons e rest =>
    show compressAux none (e :: rest) = compressPrevSpec (e :: rest)
    have h1 : compressAux none (e :: rest) = e :: compressAux (some e) rest := rfl
    rw [h1, compressAux_some_eq rest e]
    rfl

/-- Claim C2: a raw detection list forming one contiguous run of consecutive
calendar days is compressed to exactly one entry, the first date of the run;
this also survives `unique_first_past`'s truncation and reversal. -/
theorem contiguous_run_compresses_to_first (e : Date) (rest : List Date) (keep : Nat)
    (h : List.Chain (fun a b => toOrdinal b = toOrdinal a + 1) e rest) :
    compress (e :: rest) = [e] ∧ unique_first_past (e :: rest) keep = [e] := by
  have hc : compress (e :: rest) = [e] := by
    show compressAux none (e :: rest) = [e]
    have h1 : compressAux none (e :: rest) = e :: compressAux (some e) rest := rfl
    rw [h1, compressAux_chain rest e h]
  refine ⟨hc, ?_⟩
  rw [unique_first_past, hc]
  rcases keep with _ | k <;> simp [pyTakeLast]

/-- Claim C2, witness: the run 10-03-2024, 11-03-2024, 12-03-2024 with the
default past cap 20 compresses to exactly the run's first date. -/
theorem contiguous_run_compresses_to_first_witness :
    compress [⟨2024, 3, 10⟩, ⟨2024, 3, 11⟩, ⟨2024, 3, 12⟩] = [⟨2024, 3, 10⟩] ∧
    unique_first_past [⟨2024, 3, 10⟩, ⟨2024, 3, 11⟩, ⟨2024, 3, 12⟩] 20 = [⟨2024, 3, 10⟩] :=
  contiguous_run_compresses_to_first ⟨2024, 3, 10⟩ [⟨2024, 3, 11⟩, ⟨2024, 3, 12⟩] 20
    (List.Chain.cons (by decide) (List.Chain.cons (by decide) List.Chain.nil))

/-- Claim C3, counterexample. The claim states that whenever an onset date
matches a bar and between 1 and 9 bars remain, the analyzer still emits a
result over the available bars. With an anchor close of 0 and one remaining
bar, the code instead raises `ZeroDivisionError` and emits nothing. -/
theorem analyzer_window_boundary_cex :
    processDate [⟨⟨2024, 2, 1⟩, 0⟩, ⟨⟨2024, 2, 2⟩, 5⟩] "01-02-2024"
      = Except.error "ZeroDivisionError" := by
  have hp : parseDMY "01-02-2024" = some ⟨2024, 2, 1⟩ := by decide
  simp [processDate, hp, findBar]

/-- Claim C3, amended: whenever an onset date matches a bar whose anchor close
is nonzero, the analyzer takes the next 10 bars strictly after that bar's
position; if at least 1 bar remains it emits a result whose `max10` / `min10`
are the maximum / minimum close over the available (at most 10) bars, and if
0 bars remain it emits no record for that date. -/
theorem analyzer_window_boundary (df : List Bar) (ds : String) (d : Date)
    (b : Bar) (after : List Bar)
    (hp : parseDMY ds = some d) (hf : findBar d df = some (b, after))
    (hc : b.close ≠ 0) :
    (after = [] → processDate df ds = Except.ok none) ∧
    (after ≠ [] → ∃ r, processDate df ds = Except.ok (some r) ∧
      r.aspect_date = ds ∧ r.close = b.close ∧
      r.max10 ∈ (after.take 10).map Bar.close ∧
      (∀ x ∈ (after.take 10).map Bar.close, x ≤ r.max10) ∧
      r.min10 ∈ (after.take 10).map Bar.close ∧
      (∀ x ∈ (after.take 10).map Bar.close, r.min10 ≤ x) ∧
      r.pct_max = (r.max10 - b.close) / b.close * 100 ∧
      r.pct_min = (r.min10 - b.close) / b.close * 100) := by
  constructor
  · intro h0
    subst h0
    simp [processDate, hp, hf]
  · intro hne
    obtain ⟨a, as, rfl⟩ : ∃ a as, after = a :: as := by
      cases after with
      | nil => exact absurd rfl hne
      | cons a as => exact ⟨a, as, rfl⟩
    have hw : ((a :: as).take 10).map Bar.close
        = a.close :: (as.take 9).map Bar.close := by
      simp
    have hred : processDate df ds = Except.ok (some
        { aspect_date := ds
          close := b.close
          max10 := foldMax a.close ((as.take 9).map Bar.close)
          min10 := foldMin a.close ((as.take 9).map Bar.close)
          pct_max := (foldMax a.close ((as.take 9).map Bar.close) - b.close) / b.close * 100
          pct_min := (foldMin a.close ((as.take 9).map Bar.close) - b.close) / b.close * 100 }) := by
      simp only [processDate, hp, hf, hw]
      simp [hc]
    refine ⟨_, hred, rfl, rfl, ?_, ?_, ?_, ?_, rfl, rfl⟩
    · rw [hw]; exact foldMax_mem _ _
    · rw [hw]; exact le_foldMax _ _
    · rw [hw]; exact foldMin_mem _ _
    · rw [hw]; exact foldMin_le _ _

/-- Claim C3, witness: a series with one bar after the matched anchor
(close 100) emits a record for that date. -/
theorem analyzer_window_boundary_witness :
    ∃ r, processDate [⟨⟨2024, 1, 1⟩, 100⟩, ⟨⟨2024, 1, 2⟩, 112⟩] "01-01-2024"
      = Except.ok (some r) := by
  obtain ⟨r, hr, -⟩ :=
    (analyzer_window_boundary
      [⟨⟨2024, 1, 1⟩, 100⟩, ⟨⟨2024, 1, 2⟩, 112⟩] "01-01-2024" ⟨2024, 1, 1⟩
      ⟨⟨2024, 1, 1⟩, 100⟩ [⟨⟨2024, 1, 2⟩, 112⟩]
      (by decide) (by decide) (by norm_num)).2 (by simp)
  exact ⟨r, hr⟩

/-- Claim C4: the claim (and the spec) require a zero anchor close to be
skipped without crashing, with the remaining dates still processed. The code
instead raises `ZeroDivisionError`, aborting the whole call: on a series whose
01-01-2024 bar closes at 0, the batch for 01-01-2024 and 02-01-2024 returns an
error, although 02-01-2024 alone would have produced a record. -/
theorem analyze_zero_close_aborts :
    analyze_symbol_for_aspect_dates
        [⟨⟨2024, 1, 1⟩, 0⟩, ⟨⟨2024, 1, 2⟩, 5⟩, ⟨⟨2024, 1, 3⟩, 6⟩]
        ["01-01-2024", "02-01-2024"]
      = Except.error "ZeroDivisionError" ∧
    processDate [⟨⟨2024, 1, 1⟩, 0⟩, ⟨⟨2024, 1, 2⟩, 5⟩, ⟨⟨2024, 1, 3⟩, 6⟩]
        "02-01-2024"
      = Except.ok (some ⟨"02-01-2024", 5, 6, 6, 20, 20⟩) := by
  constructor
  · have hp : parseDMY "01-01-2024" = some ⟨2024, 1, 1⟩ := by decide
    simp [analyze_symbol_for_aspect_dates, processDate, hp, findBar]
  · have hp : parseDMY "02-01-2024" = some ⟨2024, 1, 2⟩ := by decide
    simp [processDate, hp, findBar, foldMax, foldMin]
    norm_num

/-- Claim C5: for a qualifying record the move-category label is the Gain
label exactly when `pct_max >= 10` and the Fall label otherwise; in particular
a record breaching both thresholds is labeled Gain. -/
theorem move_category_gain_precedence (pm pn : ℚ) (_hq : qualifies pm pn) :
    (moveCategory pm = "😆 >10% Gain" ↔ 10 ≤ pm) ∧
    (moveCategory pm = "😩 >10% Fall" ↔ ¬ 10 ≤ pm) ∧
    (10 ≤ pm → pn ≤ -10 → moveCategory pm = "😆 >10% Gain") := by
  have hne : ("😆 >10% Gain" : String) ≠ "😩 >10% Fall" := by decide
  by_cases h : (10 : ℚ) ≤ pm
  · simp [moveCategory, h, hne]
  · simp [moveCategory, h, Ne.symm hne]

/-- Claim C5, witness: the spec's scenario record `pct_max = 12`,
`pct_min = -11` qualifies on both thresholds and is labeled Gain. -/
theorem move_category_gain_precedence_witness :
    qualifies 12 (-11) ∧ moveCategory 12 = "😆 >10% Gain" :=
  ⟨Or.inl (by norm_num),
   (move_category_gain_precedence 12 (-11) (Or.inl (by norm_num))).2.2
     (by norm_num) (by norm_num)⟩

/-- Claim C7: every relation table of `ASPECTS` (Opposition, Conjunction,
Square, Trine, Sextile) maps each of the 12 zodiac signs to exactly one
image, and the Conjunction table maps every sign to itself. -/
theorem aspect_tables_total_and_conjunction_id :
    (∀ t ∈ ASPECTS.map Prod.snd, ∀ z ∈ ZODIACS,
      (t.filter (fun p => decide (p.1 = z))).length = 1) ∧
    (∀ z ∈ ZODIACS, ASPECTS_Conjunction.lookup z = some z) := by
  refine ⟨by decide, by decide⟩

/-- Claim C7, witness: the Opposition table has exactly one entry for Aries,
and Conjunction maps Aries to itself. -/
theorem aspect_tables_total_and_conjunction_id_witness :
    (ASPECTS_Opposition.filter (fun p => decide (p.1 = "Aries"))).length = 1 ∧
    ASPECTS_Conjunction.lookup "Aries" = some "Aries" :=
  ⟨aspect_tables_total_and_conjunction_id.1 ASPECTS_Opposition (by decide)
      "Aries" (by decide),
   aspect_tables_total_and_conjunction_id.2 "Aries" (by decide)⟩

/-- Claim C9: `get_zodiac_name` is total over all longitudes (negative and at
or above 360 included): the computed index lies in `[0, 11]`, so the list
indexing never fails and the result is always one of the 12 zodiac names. -/
theorem get_zodiac_name_total (lon : ℚ) :
    Int.toNat (⌊lon / 30⌋ % 12) < ZODIACS.length ∧
    get_zodiac_name lon ∈ ZODIACS := by
  have h0 : 0 ≤ ⌊lon / 30⌋ % 12 := Int.emod_nonneg _ (by norm_num)
  have h1 : ⌊lon / 30⌋ % 12 < 12 := Int.emod_lt_of_pos _ (by norm_num)
  have hlt : Int.toNat (⌊lon / 30⌋ % 12) < 12 := by omega
  have hlen : ZODIACS.length = 12 := by decide
  refine ⟨by omega, ?_⟩
  rw [get_zodiac_name, List.getD_eq_getElem ZODIACS "" (by omega)]
  exact List.getElem_mem _

/-- Claim C10: a date string that does not parse in DD-MM-YYYY format is
silently skipped by `analyze_symbol_for_aspect_dates`: it contributes no
record and the remaining dates are processed as if it were absent. -/
theorem unparseable_date_skipped (df : List Bar) (ds : String)
    (rest : List String) (h : parseDMY ds = none) :
    processDate df ds = Except.ok none ∧
    analyze_symbol_for_aspect_dates df (ds :: rest)
      = analyze_symbol_for_aspect_dates df rest := by
  have h1 : processDate df ds = Except.ok none := by
    simp [processDate, h]
  exact ⟨h1, by simp [analyze_symbol_for_aspect_dates, h1]⟩

/-- Claim C10, witness: the unparseable entry "not-a-date" contributes nothing
and does not abort the processing of the remaining date. -/
theorem unparseable_date_skipped_witness :
    processDate [] "not-a-date" = Except.ok none ∧
    analyze_symbol_for_aspect_dates [] ["not-a-date", "05-03-2024"]
      = analyze_symbol_for_aspect_dates [] ["05-03-2024"] :=
  unparseable_date_skipped [] "not-a-date" ["05-03-2024"] (by decide)

/-- Claim C6, counterexample. The claim states that the presented table, after
the minimum-occurrence filter, is sorted by win percentage descending. With
two qualifying records — "BBB" (a Fall, spec win percentage 0) first and
"AAA" (a Gain, spec win percentage 100) second — the presented table keeps
the original record order, so the win percentages read [0, 100], which is not
descending; nor does the code compute any win/loss summary to sort by. -/
theorem aggregation_not_sorted_by_win_pct_cex :
    df_filtered [⟨"BBB", 5, -12⟩, ⟨"AAA", 12, -1⟩] 1
      = [(⟨"BBB", 5, -12⟩, 1), (⟨"AAA", 12, -1⟩, 1)] ∧
    qualifies 5 (-12) ∧ qualifies 12 (-1) ∧
    specWinPct [⟨"BBB", 5, -12⟩, ⟨"AAA", 12, -1⟩] "BBB" = 0 ∧
    specWinPct [⟨"BBB", 5, -12⟩, ⟨"AAA", 12, -1⟩] "AAA" = 100 ∧
    ¬ List.Sorted (fun a b : ℚ => b ≤ a)
        ((df_filtered [⟨"BBB", 5, -12⟩, ⟨"AAA", 12, -1⟩] 1).map
          (fun p => specWinPct [⟨"BBB", 5, -12⟩, ⟨"AAA", 12, -1⟩] p.1.symbol)) := by
  have hBA : (decide (("BBB" : String) = "AAA")) = false := by decide
  have hAB : (decide (("AAA" : String) = "BBB")) = false := by decide
  have hfil : df_filtered [⟨"BBB", 5, -12⟩, ⟨"AAA", 12, -1⟩] 1
      = [(⟨"BBB", 5, -12⟩, 1), (⟨"AAA", 12, -1⟩, 1)] := by
    simp [df_filtered, addCount]
  have hB : specWinPct [⟨"BBB", 5, -12⟩, ⟨"AAA", 12, -1⟩] "BBB" = 0 := by
    norm_num [specWinPct, specWinCount, specOccCount, List.countP,
      List.countP.go, hAB]
  have hA : specWinPct [⟨"BBB", 5, -12⟩, ⟨"AAA", 12, -1⟩] "AAA" = 100 := by
    norm_num [specWinPct, specWinCount, specOccCount, List.countP,
      List.countP.go, hBA]
  refine ⟨hfil, Or.inr (by norm_num), Or.inl (by norm_num), hB, hA, ?_⟩
  intro hsort
  rw [hfil] at hsort
  simp only [List.map_cons, List.map_nil] at hsort
  rw [hB, hA] at hsort
  have h100 : (100 : ℚ) ≤ 0 :=
    List.rel_of_sorted_cons hsort 100 (List.mem_singleton.mpr rfl)
  norm_num at h100

/-- Claim C6, amended: the aggregation annotates each qualifying record with
`Count`, the number of qualifying records sharing its symbol (so 3 records of
one symbol all carry Count 3), leaving the records and their order unchanged;
the minimum-occurrence filter keeps exactly the annotated rows with
`Count >= min_hits`, preserving record order; no win/loss counts or
percentages are computed and no sorting is applied for presentation. -/
theorem aggregation_count_and_filter (rows : List ScanRow) (min_hits : Nat) :
    ((addCount rows).map Prod.fst = rows) ∧
    ((addCount rows).map Prod.snd
      = rows.map (fun r => rows.countP (fun s => decide (s.symbol = r.symbol)))) ∧
    List.Sublist (df_filtered rows min_hits) (addCount rows) ∧
    List.Sublist ((df_filtered rows min_hits).map Prod.fst) rows ∧
    (addCount [⟨"XYZ", 12, 0⟩, ⟨"XYZ", 15, -2⟩, ⟨"XYZ", 3, -11⟩]
      = [(⟨"XYZ", 12, 0⟩, 3), (⟨"XYZ", 15, -2⟩, 3), (⟨"XYZ", 3, -11⟩, 3)]) := by
  have hfst : (addCount rows).map Prod.fst = rows := by
    simp only [addCount, List.map_map]
    have hid : (Prod.fst ∘ fun r : ScanRow =>
        (r, rows.countP (fun s => decide (s.symbol = r.symbol)))) = id := rfl
    rw [hid, List.map_id]
  have hsub : List.Sublist (df_filtered rows min_hits) (addCount rows) :=
    List.filter_sublist (addCount rows)
  refine ⟨hfst, ?_, hsub, ?_, ?_⟩
  · simp only [addCount, List.map_map]
    rfl
  · have := hsub.map Prod.fst
    rwa [hfst] at this
  · simp [addCount]

/-- Claim C8: for longitudes in `[0, 360)` the zodiac name is the entry of
`ZODIACS` at index `floor(longitude / 30)`; in particular 125.0 maps to Leo,
0.0 to Aries and 359.99 to Pisces. -/
theorem zodiac_name_by_floor_index (lon : ℚ) (h0 : 0 ≤ lon) (h1 : lon < 360) :
    get_zodiac_name lon = ZODIACS.getD (Int.toNat ⌊lon / 30⌋) "" ∧
    get_zodiac_name 125 = "Leo" ∧
    get_zodiac_name 0 = "Aries" ∧
    get_zodiac_name (35999 / 100) = "Pisces" := by
  have h125 : ⌊(125 : ℚ) / 30⌋ = 4 := by
    apply Int.floor_eq_iff.mpr
    constructor <;> norm_num
  have h0f : ⌊(0 : ℚ) / 30⌋ = 0 := by norm_num
  have h359 : ⌊(35999 : ℚ) / 100 / 30⌋ = 11 := by
    apply Int.floor_eq_iff.mpr
    constructor <;> norm_num
  refine ⟨?_, ?_, ?_, ?_⟩
  · have hge : 0 ≤ ⌊lon / 30⌋ := Int.floor_nonneg.mpr (by positivity)
    have hlt : ⌊lon / 30⌋ < 12 := by
      apply Int.floor_lt.mpr
      rw [div_lt_iff₀ (by norm_num : (0 : ℚ) < 30)]
      push_cast
      linarith
    rw [get_zodiac_name, Int.emod_eq_of_lt hge hlt]
  · rw [get_zodiac_name, h125]
    rfl
  · rw [get_zodiac_name, h0f]
    rfl
  · rw [get_zodiac_name, h359]
    rfl

/-- Claim C8, witness: the spec's scenario longitude 125.0 lies in `[0, 360)`
and indeed maps to Leo through index 4. -/
theorem zodiac_name_by_floor_index_witness :
    get_zodiac_name 125 = ZODIACS.getD (Int.toNat ⌊(125 : ℚ) / 30⌋) "" ∧
    get_zodiac_name 125 = "Leo" :=
  ⟨(zodiac_name_by_floor_index 125 (by norm_num) (by norm_num)).1,
   (zodiac_name_by_floor_index 125 (by norm_num) (by norm_num)).2.1⟩
